import Mathlib

/-!
Verification model of `wangle/ssl/SSLContextManager` (from
`src/wangle/ssl/SSLContextManager.h`).

The repository only ships the header: it declares the data members
(`ctxs_`, `sessionCacheManagers_`, `ticketManagers_`, `defaultCtx_`,
`dnMap_`, `strict_`) and the operations
(`addSSLContextConfig`, `getDefaultSSLCtx`, `getSSLCtx`,
`getSSLCtxBySuffix`, `getSSLCtxByExactDomain`,
`insertSSLCtxByDomainName`, `insertIntoDnMap`, `reloadTLSTicketKeys`),
together with the domain-matching notes (header lines 140-159).  The
function bodies live in `SSLContextManager.cpp`, which is not part of
the source tree, so every operation below is modelled from the
specification's description of it.  Strings are handled through their
character lists; collaborator objects (event base, stats sinks, the
session-cache storage engine) are out of scope per the specification.
-/

set_option autoImplicit false

namespace Wangle

instance exceptDecidableEq {ε α : Type} [DecidableEq ε] [DecidableEq α] :
    DecidableEq (Except ε α)
  | Except.error e, Except.error e' =>
      if h : e = e' then Decidable.isTrue (by rw [h])
      else Decidable.isFalse (by intro hh; cases hh; exact h rfl)
  | Except.error _, Except.ok _ =>
      Decidable.isFalse (fun h => Except.noConfusion h)
  | Except.ok _, Except.error _ =>
      Decidable.isFalse (fun h => Except.noConfusion h)
  | Except.ok a, Except.ok a' =>
      if h : a = a' then Decidable.isTrue (by rw [h])
      else Decidable.isFalse (by intro hh; cases hh; exact h rfl)

/-- Modelled from the spec: `CertCrypto` is "a selector distinguishing
certificate families (e.g., RSA vs. elliptic-curve)"; the header uses
`CertCrypto::BEST_AVAILABLE` as the default selector
(`SSLContextSelectionMisc.h` is not in the source tree). -/
inductive CertCrypto where
  | BEST_AVAILABLE : CertCrypto
  | SHA1_SIGNATURE : CertCrypto
deriving DecidableEq

/-- A handle to a `folly::SSLContext`; the TLS context itself is an
external collaborator, so it is modelled as an opaque identifier. -/
structure SSLCtx where
  id : Nat
deriving DecidableEq

/-- Modelled from the spec: a `DomainKey` is a "normalized domain string
(case-folded) plus a CertCrypto selector.  Two DomainKeys are equal iff
both fields match."  (`SSLContextKey` in the header.) -/
structure SSLContextKey where
  dnString : String
  certCrypto : CertCrypto
deriving DecidableEq

/-- `TLSTicketKeySeeds`: "three ordered sets of opaque seed strings:
old, current, new" (spec section 3; the header only forward-declares
the struct). -/
structure TLSTicketKeySeeds where
  oldSeeds : List String
  currentSeeds : List String
  newSeeds : List String
deriving DecidableEq

/-- Modelled from the spec: a Ticket Key Manager "owns the rotating
symmetric keys used to encrypt session tickets; exposes a reload
operation".  `reloadFails` abstracts whether its reload operation
fails, which the spec's strict-mode discussion needs. -/
structure TLSTicketKeyManager where
  seeds : TLSTicketKeySeeds
  reloadFails : Bool
deriving DecidableEq

/-- Modelled from the spec: a Session Cache Manager "owns
resumption-cache storage; created and destroyed by the engine but never
by the lookup path".  Its internals are out of scope, so it is an
opaque identifier. -/
structure SSLSessionCacheManager where
  id : Nat
deriving DecidableEq

/-- Modelled from the spec: the certificate descriptor consumed by
`addCertificate` — "a certificate-descriptor type providing certificate
bytes/path, private-key reference, and the enumerated domain names it
covers" plus the default flag and per-certificate ticket support.
`contextConstructionFails` abstracts "bad key/cert pairing";
`ticketReloadFails` abstracts a misconfigured ticket manager; `ctxId`
identifies the TLS context the config would construct. -/
structure SSLContextConfig where
  domains : List String
  isDefault : Bool
  sessionTicketEnabled : Bool
  contextConstructionFails : Bool
  ticketReloadFails : Bool
  ctxId : Nat
deriving DecidableEq

/-- Result signalled by `insertIntoDnMap`: either the entry was
published, or the key already existed and `overwrite` was false ("a
no-op that signals a duplicate condition"). -/
inductive InsertResult where
  | inserted : InsertResult
  | duplicate : InsertResult
deriving DecidableEq

/-- State of the `SSLContextManager`, mirroring the data members in the
header: the ownership registry (`ctxs_`, `sessionCacheManagers_`,
`ticketManagers_`, one slot per installed certificate; a certificate
without ticket support holds `none`), the default context, the
`DomainName -> SSL_CTX` map `dnMap_`, and the strict-mode flag. -/
structure SSLContextManager where
  ctxs_ : List SSLCtx
  sessionCacheManagers_ : List SSLSessionCacheManager
  ticketManagers_ : List (Option TLSTicketKeyManager)
  defaultCtx_ : Option SSLCtx
  defaultCtxDomainName_ : String
  dnMap_ : List (SSLContextKey × SSLCtx)
  strict_ : Bool
deriving DecidableEq

/-- A freshly constructed manager: empty registry, empty index, no
default context (constructor `SSLContextManager(eventBase, vipName,
strict, stats)`; the collaborator arguments are out of scope). -/
def mkSSLContextManager (strict : Bool) : SSLContextManager :=
  ⟨[], [], [], none, "", [], strict⟩

/-- ASCII case-folding of one character, the normalization the spec
requires for domain keys ("normalized domain string (case-folded)"). -/
def toLowerChar : Char → Char
  | 'A' => 'a' | 'B' => 'b' | 'C' => 'c' | 'D' => 'd' | 'E' => 'e'
  | 'F' => 'f' | 'G' => 'g' | 'H' => 'h' | 'I' => 'i' | 'J' => 'j'
  | 'K' => 'k' | 'L' => 'l' | 'M' => 'm' | 'N' => 'n' | 'O' => 'o'
  | 'P' => 'p' | 'Q' => 'q' | 'R' => 'r' | 'S' => 's' | 'T' => 't'
  | 'U' => 'u' | 'V' => 'v' | 'W' => 'w' | 'X' => 'x' | 'Y' => 'y'
  | 'Z' => 'z'
  | c => c

/-- Case-folded copy of a domain string. -/
def lowerString (s : String) : String :=
  String.mk (s.data.map toLowerChar)

/-- The tail of the character list starting at its first `'.'`
(inclusive), or `none` when the name has no dot. -/
def suffixFromDot : List Char → Option (List Char)
  | [] => none
  | c :: cs => if c = '.' then some (c :: cs) else suffixFromDot cs

/-- Modelled from the spec: "compute the one-level-up suffix: drop the
leftmost label of the hostname and prepend nothing (i.e., transform
`a.b.example.com` → `.b.example.com`)". -/
def oneLevelUpSuffix (dn : String) : Option String :=
  (suffixFromDot dn.data).map String.mk

/-- Splits a wildcard name: for `'*' :: '.' :: rest` returns `rest`,
otherwise `none` ("The wildcard name must be prefixed by `*.`", header
note 2). -/
def wildcardBody : List Char → Option (List Char)
  | '*' :: '.' :: rest => some rest
  | _ => none

/-- Whether a name uses `*` anywhere other than as the leading `*.`
("It errors out whenever it sees `*` in any other locations", header
note 2). -/
def hasBadWildcard (dn : String) : Bool :=
  match wildcardBody dn.data with
  | some rest => rest.contains '*'
  | none => dn.data.contains '*'

/-- Modelled from the spec: the key a domain name is stored under.
Validates wildcard usage (`*` permitted only as the first two
characters `*.`); a wildcard name is stored in suffix form
(`*.foo.com` → key `.foo.com`, header note 3); keys are case-folded. -/
def dnToKey (dn : String) (certCrypto : CertCrypto) :
    Except String SSLContextKey :=
  match wildcardBody dn.data with
  | some rest =>
      if rest.contains '*' then Except.error "invalid wildcard name"
      else Except.ok ⟨String.mk ('.' :: rest.map toLowerChar), certCrypto⟩
  | none =>
      if dn.data.contains '*' then Except.error "invalid wildcard name"
      else Except.ok ⟨String.mk (dn.data.map toLowerChar), certCrypto⟩

/-- A domain name `insertSSLCtxByDomainName` accepts. -/
def validDomainName (dn : String) : Bool :=
  !(hasBadWildcard dn)

/-- Lookup in the `DomainName -> SSL_CTX` map (the
`std::unordered_map` `dnMap_`, modelled as an association list). -/
def dnLookup (key : SSLContextKey) :
    List (SSLContextKey × SSLCtx) → Option SSLCtx
  | [] => none
  | (k, v) :: rest => if k = key then some v else dnLookup key rest

/-- The exact `DomainKey` a lookup for `key` probes with: the domain
string case-folded ("Normalize hostname (case-fold); construct exact
DomainKey", spec section 4.1 step 1). -/
def normalizeKey (key : SSLContextKey) : SSLContextKey :=
  ⟨lowerString key.dnString, key.certCrypto⟩

/-- Modelled from the spec: "Search by the full-string domain name"
(header) — the exact-match probe of section 4.1 step 2. -/
def getSSLCtxByExactDomain (m : SSLContextManager) (key : SSLContextKey) :
    Option SSLCtx :=
  dnLookup (normalizeKey key) m.dnMap_

/-- Modelled from the spec: "Search by the _one_ level up subdomain"
(header) — the suffix probe of section 4.1 step 3.  "Only one level up
is tried — deeper wildcard nesting is not matched." -/
def getSSLCtxBySuffix (m : SSLContextManager) (key : SSLContextKey) :
    Option SSLCtx :=
  match oneLevelUpSuffix (lowerString key.dnString) with
  | some sfx => dnLookup ⟨sfx, key.certCrypto⟩ m.dnMap_
  | none => none

/-- Modelled from the spec: "Search first by exact domain, then by one
level up" (header); "If neither matches, return absent" (section 4.1
step 4). -/
def getSSLCtx (m : SSLContextManager) (key : SSLContextKey) :
    Option SSLCtx :=
  match getSSLCtxByExactDomain m key with
  | some ctx => some ctx
  | none => getSSLCtxBySuffix m key

/-- "Get the default SSL_CTX for a VIP" (header). -/
def getDefaultSSLCtx (m : SSLContextManager) : Option SSLCtx :=
  m.defaultCtx_

/-- State-passing form of `getSSLCtx`: the header declares it `const`,
so the state component is returned untouched. -/
def getSSLCtxSt (m : SSLContextManager) (key : SSLContextKey) :
    Option SSLCtx × SSLContextManager :=
  (getSSLCtx m key, m)

/-- State-passing form of `getSSLCtxByExactDomain` (`const` in the
header). -/
def getSSLCtxByExactDomainSt (m : SSLContextManager)
    (key : SSLContextKey) : Option SSLCtx × SSLContextManager :=
  (getSSLCtxByExactDomain m key, m)

/-- State-passing form of `getSSLCtxBySuffix` (`const` in the
header). -/
def getSSLCtxBySuffixSt (m : SSLContextManager) (key : SSLContextKey) :
    Option SSLCtx × SSLContextManager :=
  (getSSLCtxBySuffix m key, m)

/-- State-passing form of `getDefaultSSLCtx` (`const` in the
header). -/
def getDefaultSSLCtxSt (m : SSLContextManager) :
    Option SSLCtx × SSLContextManager :=
  (getDefaultSSLCtx m, m)

/-- Replaces the entry stored under `key` by `(key, sslCtx)`, leaving
every other entry alone ("a single atomic replace of one entry"). -/
def replaceEntry (key : SSLContextKey) (sslCtx : SSLCtx)
    (p : SSLContextKey × SSLCtx) : SSLContextKey × SSLCtx :=
  if p.1 = key then (key, sslCtx) else p

/-- Modelled from the spec: `insertIntoDnMap(key, sslCtx, overwrite)` —
"If a key already exists and `overwrite` is false, the insertion is a
no-op that signals a duplicate condition"; otherwise "the mapping
update is a single atomic replace of one entry". -/
def insertIntoDnMap (m : SSLContextManager) (key : SSLContextKey)
    (sslCtx : SSLCtx) (overwrite : Bool) :
    InsertResult × SSLContextManager :=
  match dnLookup key m.dnMap_ with
  | some _ =>
      if overwrite then
        (InsertResult.inserted,
         { m with dnMap_ := m.dnMap_.map (replaceEntry key sslCtx) })
      else (InsertResult.duplicate, m)
  | none =>
      (InsertResult.inserted,
       { m with dnMap_ := (key, sslCtx) :: m.dnMap_ })

/-- Modelled from the spec: `insert(domainName, context, certCrypto,
overwrite)` — validates wildcard usage ("a `*` is permitted only as the
first two characters (`*.`); a `*` anywhere else is a validation
failure"), stores wildcard names in suffix form, and publishes through
`insertIntoDnMap`.  (`insertSSLCtxByDomainName` in the header; the spec
makes `overwrite` an explicit parameter.) -/
def insertSSLCtxByDomainName (m : SSLContextManager) (dn : String)
    (sslCtx : SSLCtx) (certCrypto : CertCrypto) (overwrite : Bool) :
    Except String (InsertResult × SSLContextManager) :=
  match dnToKey dn certCrypto with
  | Except.error e => Except.error e
  | Except.ok key => Except.ok (insertIntoDnMap m key sslCtx overwrite)

/-- Registers one context under one domain name inside
`addCertificate`: "malformed wildcard name → validation error surfaced
to caller, installation aborted for that name only"; duplicates are
non-fatal. -/
def insertDomainStep (m : SSLContextManager) (dn : String)
    (sslCtx : SSLCtx) (overwrite : Bool) : SSLContextManager :=
  match insertSSLCtxByDomainName m dn sslCtx
      CertCrypto.BEST_AVAILABLE overwrite with
  | Except.ok (_, m') => m'
  | Except.error _ => m

/-- Registers one context under a list of domain names, as
`addCertificate` does ("other names from the same certificate still
get installed"). -/
def insertDomains (m : SSLContextManager) (sslCtx : SSLCtx)
    (overwrite : Bool) : List String → SSLContextManager
  | [] => m
  | dn :: rest =>
      insertDomains (insertDomainStep m dn sslCtx overwrite)
        sslCtx overwrite rest

/-- Modelled from the spec: `addCertificate(config, cacheOptions,
ticketSeeds, vipAddress, externalCache)` (`addSSLContextConfig` in the
header).  Builds one Certificate Context (construction failure is
"fatal for this call, nothing is registered"); allocates a Session
Cache Manager and, when `ticketSeeds` is non-absent and the certificate
enables tickets, a Ticket Key Manager; appends them to the ownership
registry; stores the context as Default Context "if this is the first
or explicitly flagged default certificate"; then registers the context
under every enumerated domain name.  `registerContext` is the
registry-and-default part; `addSSLContextConfig` the whole call. -/
def registerContext (m : SSLContextManager)
    (ctxConfig : SSLContextConfig)
    (ticketSeeds : Option TLSTicketKeySeeds) : SSLContextManager :=
  { m with
    ctxs_ := m.ctxs_ ++ [⟨ctxConfig.ctxId⟩],
    sessionCacheManagers_ :=
      m.sessionCacheManagers_ ++ [⟨ctxConfig.ctxId⟩],
    ticketManagers_ := m.ticketManagers_ ++
      [if ctxConfig.sessionTicketEnabled then
         ticketSeeds.map (fun s => ⟨s, ctxConfig.ticketReloadFails⟩)
       else none],
    defaultCtx_ :=
      if ctxConfig.isDefault || m.ctxs_.isEmpty then
        some ⟨ctxConfig.ctxId⟩
      else m.defaultCtx_,
    defaultCtxDomainName_ :=
      if ctxConfig.isDefault || m.ctxs_.isEmpty then
        ctxConfig.domains.headD ""
      else m.defaultCtxDomainName_ }

def addSSLContextConfig (m : SSLContextManager)
    (ctxConfig : SSLContextConfig)
    (ticketSeeds : Option TLSTicketKeySeeds) (overwrite : Bool) :
    Except String SSLContextManager :=
  if ctxConfig.contextConstructionFails then
    Except.error "SSLContext construction failed"
  else
    Except.ok (insertDomains (registerContext m ctxConfig ticketSeeds)
      ⟨ctxConfig.ctxId⟩ overwrite ctxConfig.domains)

/-- One manager's reaction to a reload in non-strict mode: a failing
manager is "logged and skipped", a certificate without ticket support
"is skipped, not an error", every other manager receives the new seed
sets. -/
def rotateTicketManager (seeds : TLSTicketKeySeeds) :
    Option TLSTicketKeyManager → Option TLSTicketKeyManager
  | none => none
  | some t =>
      if t.reloadFails then some t else some { t with seeds := seeds }

/-- Applies fresh seed sets to one optional Ticket Key Manager slot;
a certificate without ticket support (`none`) is left absent. -/
def reseedTicketManager (seeds : TLSTicketKeySeeds) :
    Option TLSTicketKeyManager → Option TLSTicketKeyManager :=
  Option.map (fun t => { t with seeds := seeds })

/-- A ticket-manager slot whose reload cannot fail: either absent
(certificate without ticket support) or healthy. -/
def ticketReloadHealthy : Option TLSTicketKeyManager → Bool
  | none => true
  | some t => !t.reloadFails

/-- Walks the registered ticket managers in registration order,
applying the seed sets; under strict mode any per-manager failure "is
escalated to a fatal error for the whole manager". -/
def reloadTicketManagers (strict : Bool) (seeds : TLSTicketKeySeeds) :
    List (Option TLSTicketKeyManager) →
    Except String (List (Option TLSTicketKeyManager))
  | [] => Except.ok []
  | none :: rest =>
      (reloadTicketManagers strict seeds rest).map
        (fun l => none :: l)
  | some t :: rest =>
      if t.reloadFails then
        if strict then Except.error "ticket seed reload failed"
        else
          (reloadTicketManagers strict seeds rest).map
            (fun l => some t :: l)
      else
        (reloadTicketManagers strict seeds rest).map
          (fun l => some { t with seeds := seeds } :: l)

/-- Modelled from the spec: `reloadTicketKeys(old, current, new)` —
"applies the same three seed-sets to every Ticket Key Manager currently
registered, in registration order" (`reloadTLSTicketKeys` in the
header). -/
def reloadTLSTicketKeys (m : SSLContextManager)
    (oldSeeds currentSeeds newSeeds : List String) :
    Except String SSLContextManager :=
  (reloadTicketManagers m.strict_ ⟨oldSeeds, currentSeeds, newSeeds⟩
      m.ticketManagers_).map
    (fun tms => { m with ticketManagers_ := tms })

/-- One public operation on the manager, for stating properties of
operation sequences. -/
inductive SSLOp where
  | addCfg (ctxConfig : SSLContextConfig)
      (ticketSeeds : Option TLSTicketKeySeeds) (overwrite : Bool) : SSLOp
  | insertDN (dn : String) (sslCtx : SSLCtx) (certCrypto : CertCrypto)
      (overwrite : Bool) : SSLOp
  | reload (oldSeeds currentSeeds newSeeds : List String) : SSLOp
  | lookupOp (key : SSLContextKey) : SSLOp
  | lookupExactOp (key : SSLContextKey) : SSLOp
  | lookupSuffixOp (key : SSLContextKey) : SSLOp
  | getDefaultOp : SSLOp

/-- Executes one operation; a failed operation leaves the manager
unchanged ("manager state unchanged"). -/
def execOp (m : SSLContextManager) : SSLOp → SSLContextManager
  | SSLOp.addCfg cfg ts ow =>
      match addSSLContextConfig m cfg ts ow with
      | Except.ok m' => m'
      | Except.error _ => m
  | SSLOp.insertDN dn ctx cr ow =>
      match insertSSLCtxByDomainName m dn ctx cr ow with
      | Except.ok (_, m') => m'
      | Except.error _ => m
  | SSLOp.reload o c n =>
      match reloadTLSTicketKeys m o c n with
      | Except.ok m' => m'
      | Except.error _ => m
  | SSLOp.lookupOp key => (getSSLCtxSt m key).2
  | SSLOp.lookupExactOp key => (getSSLCtxByExactDomainSt m key).2
  | SSLOp.lookupSuffixOp key => (getSSLCtxBySuffixSt m key).2
  | SSLOp.getDefaultOp => (getDefaultSSLCtxSt m).2

/-- Executes a sequence of operations in order. -/
def execList (m : SSLContextManager) : List SSLOp → SSLContextManager
  | [] => m
  | op :: ops => execList (execOp m op) ops

/-- The spec's Domain Index invariant: "every key present in the index
refers to a context that is also present in the engine's ownership
registry". -/
def InvOwned (m : SSLContextManager) : Prop :=
  ∀ p ∈ m.dnMap_, p.2 ∈ m.ctxs_

instance (m : SSLContextManager) : Decidable (InvOwned m) := by
  unfold InvOwned
  infer_instance

/-- An operation respects the ownership registry: a direct
`insertSSLCtxByDomainName` must be handed a context the registry
already owns; every other operation is unrestricted. -/
def opSafe (m : SSLContextManager) : SSLOp → Prop
  | SSLOp.insertDN _ ctx _ _ => ctx ∈ m.ctxs_
  | _ => True

instance (m : SSLContextManager) (op : SSLOp) : Decidable (opSafe m op) := by
  cases op <;> (unfold opSafe; infer_instance)

/-- A sequence of operations respects the ownership registry at each
step. -/
def seqSafe : SSLContextManager → List SSLOp → Prop
  | _, [] => True
  | m, op :: ops => opSafe m op ∧ seqSafe (execOp m op) ops

instance seqSafeDecidable : ∀ (m : SSLContextManager) (ops : List SSLOp),
    Decidable (seqSafe m ops)
  | _, [] => Decidable.isTrue trivial
  | m, op :: ops =>
      @instDecidableAnd _ _ inferInstance
        (seqSafeDecidable (execOp m op) ops)

/-- No key stored in the index contains a `*`: exact keys are
star-free by validation, wildcard keys have their `*.` replaced by
`.`. -/
def noStarKeys (m : SSLContextManager) : Prop :=
  ∀ p ∈ m.dnMap_, p.1.dnString.data.contains '*' = false

instance (m : SSLContextManager) : Decidable (noStarKeys m) := by
  unfold noStarKeys
  infer_instance

/-- An `addCertificate` is default-flagged when the config says so or
when it is the first registration for the manager (spec section
4.4). -/
def defaultFlagged (m : SSLContextManager)
    (ctxConfig : SSLContextConfig) : Prop :=
  ctxConfig.isDefault = true ∨ m.ctxs_ = []

/-- An operation that is not a default-flagged registration: a
non-default `addCertificate` on a manager that already has at least
one registration, or any non-`addCertificate` operation. -/
def defaultPreserving (m : SSLContextManager) : SSLOp → Prop
  | SSLOp.addCfg cfg _ _ => cfg.isDefault = false ∧ m.ctxs_ ≠ []
  | _ => True


/-! ### Helper lemmas -/

theorem toLowerChar_eq_star {c : Char} (h : toLowerChar c = '*') :
    c = '*' := by
  unfold toLowerChar at h
  split at h <;> first | exact absurd h (by decide) | exact h

theorem map_toLowerChar_contains_star_false {l : List Char}
    (h : l.contains '*' = false) :
    (l.map toLowerChar).contains '*' = false := by
  induction l with
  | nil => rfl
  | cons c t ih =>
      rw [List.contains_cons, Bool.or_eq_false_iff] at h
      rw [List.map_cons, List.contains_cons, Bool.or_eq_false_iff]
      refine ⟨?_, ih h.2⟩
      have hc : ¬ c = '*' := by
        intro hc
        rw [hc] at h
        exact absurd h.1 (by decide)
      have h2 : ¬ toLowerChar c = '*' := fun hh => hc (toLowerChar_eq_star hh)
      exact beq_eq_false_iff_ne.mpr (fun hh => h2 hh.symm)

theorem map_toLowerChar_contains_star_true {l : List Char}
    (h : l.contains '*' = true) :
    (l.map toLowerChar).contains '*' = true := by
  induction l with
  | nil => exact absurd h (by decide)
  | cons c t ih =>
      rw [List.contains_cons, Bool.or_eq_true] at h
      rw [List.map_cons, List.contains_cons, Bool.or_eq_true]
      rcases h with h | h
      · have hc : c = '*' := (beq_iff_eq.mp h).symm
        left
        rw [hc]
        decide
      · exact Or.inr (ih h)

theorem dnToKey_ok_star_free {dn : String} {cr : CertCrypto}
    {key : SSLContextKey} (h : dnToKey dn cr = Except.ok key) :
    key.dnString.data.contains '*' = false := by
  unfold dnToKey at h
  split at h
  · split at h
    · exact Except.noConfusion h
    · cases h
      rename_i hr
      rw [show ({ data := '.' :: _ } : String).data = '.' :: _ from rfl]
      rw [List.contains_cons, Bool.or_eq_false_iff]
      exact ⟨by decide, map_toLowerChar_contains_star_false (by simpa using hr)⟩
  · split at h
    · exact Except.noConfusion h
    · cases h
      rename_i hr
      exact map_toLowerChar_contains_star_false (by simpa using hr)


theorem dnLookup_cons_self {key : SSLContextKey} {v : SSLCtx}
    {l : List (SSLContextKey × SSLCtx)} :
    dnLookup key ((key, v) :: l) = some v := by
  simp [dnLookup]

theorem dnLookup_cons_ne {key k : SSLContextKey} {v : SSLCtx}
    {l : List (SSLContextKey × SSLCtx)} (h : k ≠ key) :
    dnLookup key ((k, v) :: l) = dnLookup key l := by
  simp [dnLookup, h]

theorem dnLookup_some_mem {key : SSLContextKey} {v : SSLCtx} :
    ∀ {l : List (SSLContextKey × SSLCtx)},
      dnLookup key l = some v → (key, v) ∈ l := by
  intro l
  induction l with
  | nil => intro h; exact Option.noConfusion h
  | cons p rest ih =>
      intro h
      rcases p with ⟨k, w⟩
      by_cases hk : k = key
      · subst hk
        rw [dnLookup_cons_self] at h
        cases h
        exact List.mem_cons_self _ _
      · rw [dnLookup_cons_ne hk] at h
        exact List.mem_cons_of_mem _ (ih h)

theorem dnLookup_map_replace_self {key : SSLContextKey} {ctx : SSLCtx}
    {l : List (SSLContextKey × SSLCtx)}
    (h : (dnLookup key l).isSome = true) :
    dnLookup key (l.map (replaceEntry key ctx)) = some ctx := by
  induction l with
  | nil => simp [dnLookup] at h
  | cons p rest ih =>
      rcases p with ⟨k, w⟩
      by_cases hk : k = key
      · subst hk
        rw [List.map_cons]
        rw [show replaceEntry k ctx (k, w) = (k, ctx) from by
          simp [replaceEntry]]
        exact dnLookup_cons_self
      · rw [List.map_cons]
        rw [show replaceEntry key ctx (k, w) = (k, w) from by
          simp [replaceEntry, hk]]
        rw [dnLookup_cons_ne hk]
        rw [dnLookup_cons_ne hk] at h
        exact ih h

theorem dnLookup_map_replace_isSome {key k : SSLContextKey} {ctx : SSLCtx}
    {l : List (SSLContextKey × SSLCtx)} :
    (dnLookup k (l.map (replaceEntry key ctx))).isSome =
      (dnLookup k l).isSome := by
  induction l with
  | nil => rfl
  | cons p rest ih =>
      rcases p with ⟨k', w⟩
      rw [List.map_cons]
      by_cases hk : k' = key
      · subst hk
        rw [show replaceEntry k' ctx (k', w) = (k', ctx) from by
          simp [replaceEntry]]
        by_cases hkk : k' = k
        · subst hkk
          rw [dnLookup_cons_self, dnLookup_cons_self]
          rfl
        · rw [dnLookup_cons_ne hkk, dnLookup_cons_ne hkk]
          exact ih
      · rw [show replaceEntry key ctx (k', w) = (k', w) from by
          simp [replaceEntry, hk]]
        by_cases hkk : k' = k
        · subst hkk
          rw [dnLookup_cons_self, dnLookup_cons_self]
        · rw [dnLookup_cons_ne hkk, dnLookup_cons_ne hkk]
          exact ih

theorem insertIntoDnMap_frame (m : SSLContextManager)
    (key : SSLContextKey) (ctx : SSLCtx) (ow : Bool) :
    (insertIntoDnMap m key ctx ow).2.ctxs_ = m.ctxs_
    ∧ (insertIntoDnMap m key ctx ow).2.sessionCacheManagers_ =
        m.sessionCacheManagers_
    ∧ (insertIntoDnMap m key ctx ow).2.ticketManagers_ = m.ticketManagers_
    ∧ (insertIntoDnMap m key ctx ow).2.defaultCtx_ = m.defaultCtx_
    ∧ (insertIntoDnMap m key ctx ow).2.defaultCtxDomainName_ =
        m.defaultCtxDomainName_
    ∧ (insertIntoDnMap m key ctx ow).2.strict_ = m.strict_ := by
  unfold insertIntoDnMap
  split
  · split
    · exact ⟨rfl, rfl, rfl, rfl, rfl, rfl⟩
    · exact ⟨rfl, rfl, rfl, rfl, rfl, rfl⟩
  · exact ⟨rfl, rfl, rfl, rfl, rfl, rfl⟩

theorem insertIntoDnMap_mem (m : SSLContextManager)
    (key : SSLContextKey) (ctx : SSLCtx) (ow : Bool) :
    ∀ p ∈ (insertIntoDnMap m key ctx ow).2.dnMap_,
      p ∈ m.dnMap_ ∨ p = (key, ctx) := by
  intro p hp
  unfold insertIntoDnMap at hp
  revert hp
  split
  · split
    · intro hp
      simp only [List.mem_map] at hp
      obtain ⟨q, hq, hpq⟩ := hp
      unfold replaceEntry at hpq
      by_cases hqk : q.1 = key
      · rw [if_pos hqk] at hpq
        exact Or.inr hpq.symm
      · rw [if_neg hqk] at hpq
        exact Or.inl (hpq ▸ hq)
    · intro hp
      exact Or.inl hp
  · intro hp
    rcases List.mem_cons.mp hp with h | h
    · exact Or.inr h
    · exact Or.inl h

theorem insertIntoDnMap_present (m : SSLContextManager)
    (key : SSLContextKey) (ctx : SSLCtx) (ow : Bool) :
    (dnLookup key (insertIntoDnMap m key ctx ow).2.dnMap_).isSome =
      true := by
  unfold insertIntoDnMap
  split
  · rename_i v h
    split
    · rw [dnLookup_map_replace_self (by rw [h]; rfl)]
      rfl
    · rw [h]
      rfl
  · rw [dnLookup_cons_self]
    rfl

theorem insertIntoDnMap_preserves_present (m : SSLContextManager)
    (key k : SSLContextKey) (ctx : SSLCtx) (ow : Bool)
    (h : (dnLookup k m.dnMap_).isSome = true) :
    (dnLookup k (insertIntoDnMap m key ctx ow).2.dnMap_).isSome =
      true := by
  unfold insertIntoDnMap
  split
  · split
    · rw [dnLookup_map_replace_isSome]
      exact h
    · exact h
  · by_cases hk : key = k
    · subst hk
      rw [dnLookup_cons_self]
      rfl
    · rw [dnLookup_cons_ne hk]
      exact h

theorem insertDomainStep_frame (m : SSLContextManager) (dn : String)
    (ctx : SSLCtx) (ow : Bool) :
    (insertDomainStep m dn ctx ow).ctxs_ = m.ctxs_
    ∧ (insertDomainStep m dn ctx ow).sessionCacheManagers_ =
        m.sessionCacheManagers_
    ∧ (insertDomainStep m dn ctx ow).ticketManagers_ = m.ticketManagers_
    ∧ (insertDomainStep m dn ctx ow).defaultCtx_ = m.defaultCtx_
    ∧ (insertDomainStep m dn ctx ow).defaultCtxDomainName_ =
        m.defaultCtxDomainName_
    ∧ (insertDomainStep m dn ctx ow).strict_ = m.strict_ := by
  unfold insertDomainStep insertSSLCtxByDomainName
  cases h : dnToKey dn CertCrypto.BEST_AVAILABLE with
  | error e => exact ⟨rfl, rfl, rfl, rfl, rfl, rfl⟩
  | ok key => exact insertIntoDnMap_frame m key ctx ow

theorem insertDomainStep_mem (m : SSLContextManager) (dn : String)
    (ctx : SSLCtx) (ow : Bool) :
    ∀ p ∈ (insertDomainStep m dn ctx ow).dnMap_,
      p ∈ m.dnMap_ ∨
        (p.2 = ctx ∧ p.1.dnString.data.contains '*' = false) := by
  intro p hp
  unfold insertDomainStep insertSSLCtxByDomainName at hp
  revert hp
  cases h : dnToKey dn CertCrypto.BEST_AVAILABLE with
  | error e => exact fun hp => Or.inl hp
  | ok key =>
      intro hp
      rcases insertIntoDnMap_mem m key ctx ow p hp with hm | he
      · exact Or.inl hm
      · subst he
        exact Or.inr ⟨rfl, dnToKey_ok_star_free h⟩

theorem insertDomainStep_preserves_present (m : SSLContextManager)
    (dn : String) (k : SSLContextKey) (ctx : SSLCtx) (ow : Bool)
    (h : (dnLookup k m.dnMap_).isSome = true) :
    (dnLookup k (insertDomainStep m dn ctx ow).dnMap_).isSome = true := by
  unfold insertDomainStep insertSSLCtxByDomainName
  cases hk : dnToKey dn CertCrypto.BEST_AVAILABLE with
  | error e => exact h
  | ok key => exact insertIntoDnMap_preserves_present m key k ctx ow h

theorem insertDomainStep_present (m : SSLContextManager) (dn : String)
    (key : SSLContextKey) (ctx : SSLCtx) (ow : Bool)
    (h : dnToKey dn CertCrypto.BEST_AVAILABLE = Except.ok key) :
    (dnLookup key (insertDomainStep m dn ctx ow).dnMap_).isSome = true := by
  unfold insertDomainStep insertSSLCtxByDomainName
  rw [h]
  exact insertIntoDnMap_present m key ctx ow

theorem insertDomains_frame (ctx : SSLCtx) (ow : Bool) :
    ∀ (ds : List String) (m : SSLContextManager),
      (insertDomains m ctx ow ds).ctxs_ = m.ctxs_
      ∧ (insertDomains m ctx ow ds).sessionCacheManagers_ =
          m.sessionCacheManagers_
      ∧ (insertDomains m ctx ow ds).ticketManagers_ = m.ticketManagers_
      ∧ (insertDomains m ctx ow ds).defaultCtx_ = m.defaultCtx_
      ∧ (insertDomains m ctx ow ds).defaultCtxDomainName_ =
          m.defaultCtxDomainName_
      ∧ (insertDomains m ctx ow ds).strict_ = m.strict_ := by
  intro ds
  induction ds with
  | nil => exact fun m => ⟨rfl, rfl, rfl, rfl, rfl, rfl⟩
  | cons dn rest ih =>
      intro m
      have h1 := ih (insertDomainStep m dn ctx ow)
      have h2 := insertDomainStep_frame m dn ctx ow
      unfold insertDomains
      refine ⟨?_, ?_, ?_, ?_, ?_, ?_⟩
      · rw [h1.1, h2.1]
      · rw [h1.2.1, h2.2.1]
      · rw [h1.2.2.1, h2.2.2.1]
      · rw [h1.2.2.2.1, h2.2.2.2.1]
      · rw [h1.2.2.2.2.1, h2.2.2.2.2.1]
      · rw [h1.2.2.2.2.2, h2.2.2.2.2.2]

theorem insertDomains_mem (ctx : SSLCtx) (ow : Bool) :
    ∀ (ds : List String) (m : SSLContextManager),
      ∀ p ∈ (insertDomains m ctx ow ds).dnMap_,
        p ∈ m.dnMap_ ∨
          (p.2 = ctx ∧ p.1.dnString.data.contains '*' = false) := by
  intro ds
  induction ds with
  | nil => exact fun m p hp => Or.inl hp
  | cons dn rest ih =>
      intro m p hp
      unfold insertDomains at hp
      rcases ih (insertDomainStep m dn ctx ow) p hp with hm | hr
      · exact insertDomainStep_mem m dn ctx ow p hm
      · exact Or.inr hr

theorem insertDomains_preserves_present (ctx : SSLCtx) (ow : Bool) :
    ∀ (ds : List String) (m : SSLContextManager) (k : SSLContextKey),
      (dnLookup k m.dnMap_).isSome = true →
      (dnLookup k (insertDomains m ctx ow ds).dnMap_).isSome = true := by
  intro ds
  induction ds with
  | nil => exact fun m k h => h
  | cons dn rest ih =>
      intro m k h
      unfold insertDomains
      exact ih (insertDomainStep m dn ctx ow) k
        (insertDomainStep_preserves_present m dn k ctx ow h)

theorem insertDomains_present_of_mem (ctx : SSLCtx) (ow : Bool) :
    ∀ (ds : List String) (m : SSLContextManager) (dn : String)
      (key : SSLContextKey),
      dn ∈ ds →
      dnToKey dn CertCrypto.BEST_AVAILABLE = Except.ok key →
      (dnLookup key (insertDomains m ctx ow ds).dnMap_).isSome = true := by
  intro ds
  induction ds with
  | nil =>
      intro m dn key hmem
      exact absurd hmem (List.not_mem_nil dn)
  | cons d rest ih =>
      intro m dn key hmem hkey
      rcases List.mem_cons.mp hmem with he | hm
      · subst he
        unfold insertDomains
        exact insertDomains_preserves_present ctx ow rest _ key
          (insertDomainStep_present m dn key ctx ow hkey)
      · unfold insertDomains
        exact ih (insertDomainStep m d ctx ow) dn key hm hkey

theorem getSSLCtx_of_exact_some {m : SSLContextManager}
    {key : SSLContextKey} {c : SSLCtx}
    (h : getSSLCtxByExactDomain m key = some c) :
    getSSLCtx m key = some c := by
  unfold getSSLCtx
  rw [h]

theorem getSSLCtx_of_exact_none {m : SSLContextManager}
    {key : SSLContextKey} (h : getSSLCtxByExactDomain m key = none) :
    getSSLCtx m key = getSSLCtxBySuffix m key := by
  unfold getSSLCtx
  rw [h]

theorem getSSLCtx_isSome_of_suffix {m : SSLContextManager}
    {key : SSLContextKey}
    (h : (getSSLCtxBySuffix m key).isSome = true) :
    (getSSLCtx m key).isSome = true := by
  unfold getSSLCtx
  cases he : getSSLCtxByExactDomain m key with
  | some c => rfl
  | none => exact h

theorem getSSLCtx_isSome_of_exact {m : SSLContextManager}
    {key : SSLContextKey}
    (h : (getSSLCtxByExactDomain m key).isSome = true) :
    (getSSLCtx m key).isSome = true := by
  unfold getSSLCtx
  cases he : getSSLCtxByExactDomain m key with
  | some c => rfl
  | none => rw [he] at h; exact absurd h (by decide)

theorem star_probe_none {m : SSLContextManager} {key : SSLContextKey}
    (hstar : key.dnString.data.contains '*' = true)
    (hns : noStarKeys m) :
    dnLookup key m.dnMap_ = none := by
  cases h : dnLookup key m.dnMap_ with
  | none => rfl
  | some v =>
      have hmem := dnLookup_some_mem h
      have := hns (key, v) hmem
      rw [this] at hstar
      exact absurd hstar (by decide)

theorem reloadTicketManagers_nonstrict (seeds : TLSTicketKeySeeds) :
    ∀ l : List (Option TLSTicketKeyManager),
      reloadTicketManagers false seeds l =
        Except.ok (l.map (rotateTicketManager seeds)) := by
  intro l
  induction l with
  | nil => rfl
  | cons t rest ih =>
      cases t with
      | none =>
          unfold reloadTicketManagers
          rw [ih]
          rfl
      | some tm =>
          by_cases hf : tm.reloadFails = true
          · simp only [reloadTicketManagers, hf, if_true, ih,
              Bool.false_eq_true, if_false, Except.map, List.map_cons]
            simp [rotateTicketManager, hf]
          · simp only [reloadTicketManagers, hf, if_false, ih,
              Except.map, List.map_cons]
            simp [rotateTicketManager, hf]

theorem reloadTicketManagers_strict_fail (seeds : TLSTicketKeySeeds) :
    ∀ l : List (Option TLSTicketKeyManager),
      ∀ t : TLSTicketKeyManager, some t ∈ l → t.reloadFails = true →
      reloadTicketManagers true seeds l =
        Except.error "ticket seed reload failed" := by
  intro l
  induction l with
  | nil =>
      intro t hmem
      exact absurd hmem (List.not_mem_nil _)
  | cons o rest ih =>
      intro t hmem hfail
      rcases List.mem_cons.mp hmem with he | hm
      · subst he
        simp [reloadTicketManagers, hfail]
      · cases o with
        | none =>
            simp [reloadTicketManagers, ih t hm hfail, Except.map]
        | some tm =>
            by_cases hf : tm.reloadFails = true
            · simp [reloadTicketManagers, hf]
            · simp [reloadTicketManagers, hf, ih t hm hfail, Except.map]

theorem reloadTicketManagers_no_fail (strict : Bool)
    (seeds : TLSTicketKeySeeds) :
    ∀ l : List (Option TLSTicketKeyManager),
      (∀ t : TLSTicketKeyManager, some t ∈ l → t.reloadFails = false) →
      reloadTicketManagers strict seeds l =
        Except.ok (l.map (reseedTicketManager seeds)) := by
  intro l
  induction l with
  | nil => intro _; rfl
  | cons o rest ih =>
      intro hnf
      have hrest : ∀ t : TLSTicketKeyManager, some t ∈ rest →
          t.reloadFails = false :=
        fun t hm => hnf t (List.mem_cons_of_mem _ hm)
      cases o with
      | none =>
          unfold reloadTicketManagers
          rw [ih hrest]
          rfl
      | some tm =>
          have hf : tm.reloadFails = false :=
            hnf tm (List.mem_cons_self _ _)
          simp only [reloadTicketManagers, hf, Bool.false_eq_true,
            if_false, ih hrest, Except.map, List.map_cons,
            reseedTicketManager, Option.map]

theorem addSSLContextConfig_fail {m : SSLContextManager}
    {cfg : SSLContextConfig} {ts : Option TLSTicketKeySeeds} {ow : Bool}
    (h : cfg.contextConstructionFails = true) :
    addSSLContextConfig m cfg ts ow =
      Except.error "SSLContext construction failed" := by
  unfold addSSLContextConfig
  rw [if_pos h]

theorem addSSLContextConfig_ok {m : SSLContextManager}
    {cfg : SSLContextConfig} {ts : Option TLSTicketKeySeeds} {ow : Bool}
    (h : cfg.contextConstructionFails = false) :
    addSSLContextConfig m cfg ts ow =
      Except.ok (insertDomains (registerContext m cfg ts)
        ⟨cfg.ctxId⟩ ow cfg.domains) := by
  unfold addSSLContextConfig
  rw [if_neg (by rw [h]; exact Bool.false_ne_true)]

theorem execOp_addCfg_fail {m : SSLContextManager}
    {cfg : SSLContextConfig} {ts : Option TLSTicketKeySeeds} {ow : Bool}
    (h : cfg.contextConstructionFails = true) :
    execOp m (SSLOp.addCfg cfg ts ow) = m := by
  simp only [execOp]
  rw [addSSLContextConfig_fail h]

theorem execOp_addCfg_ok {m : SSLContextManager}
    {cfg : SSLContextConfig} {ts : Option TLSTicketKeySeeds} {ow : Bool}
    (h : cfg.contextConstructionFails = false) :
    execOp m (SSLOp.addCfg cfg ts ow) =
      insertDomains (registerContext m cfg ts)
        ⟨cfg.ctxId⟩ ow cfg.domains := by
  simp only [execOp]
  rw [addSSLContextConfig_ok h]

theorem execOp_insertDN_ok {m : SSLContextManager} {dn : String}
    {ctx : SSLCtx} {cr : CertCrypto} {ow : Bool} {key : SSLContextKey}
    (h : dnToKey dn cr = Except.ok key) :
    execOp m (SSLOp.insertDN dn ctx cr ow) =
      (insertIntoDnMap m key ctx ow).2 := by
  simp only [execOp, insertSSLCtxByDomainName]
  rw [h]

theorem execOp_insertDN_err {m : SSLContextManager} {dn : String}
    {ctx : SSLCtx} {cr : CertCrypto} {ow : Bool} {e : String}
    (h : dnToKey dn cr = Except.error e) :
    execOp m (SSLOp.insertDN dn ctx cr ow) = m := by
  simp only [execOp, insertSSLCtxByDomainName]
  rw [h]

theorem execOp_reload_fields (m : SSLContextManager)
    (o c n : List String) :
    (execOp m (SSLOp.reload o c n)).dnMap_ = m.dnMap_
    ∧ (execOp m (SSLOp.reload o c n)).ctxs_ = m.ctxs_
    ∧ (execOp m (SSLOp.reload o c n)).defaultCtx_ = m.defaultCtx_ := by
  simp only [execOp, reloadTLSTicketKeys]
  cases h : reloadTicketManagers m.strict_ ⟨o, c, n⟩ m.ticketManagers_ with
  | error e => exact ⟨rfl, rfl, rfl⟩
  | ok tms => exact ⟨rfl, rfl, rfl⟩

theorem noStarKeys_insertDomains {ctx : SSLCtx} {ow : Bool}
    {ds : List String} {m : SSLContextManager} (h : noStarKeys m) :
    noStarKeys (insertDomains m ctx ow ds) := by
  intro p hp
  rcases insertDomains_mem ctx ow ds m p hp with hm | hr
  · exact h p hm
  · exact hr.2

theorem isEmpty_eq_false_of_ne_nil {l : List SSLCtx} (h : l ≠ []) :
    l.isEmpty = false := by
  cases l with
  | nil => exact absurd rfl h
  | cons a t => rfl

theorem execOp_default_flagged {m : SSLContextManager}
    {cfg : SSLContextConfig} {ts : Option TLSTicketKeySeeds} {ow : Bool}
    (hc : cfg.contextConstructionFails = false)
    (hf : defaultFlagged m cfg) :
    (execOp m (SSLOp.addCfg cfg ts ow)).defaultCtx_ =
      some ⟨cfg.ctxId⟩ := by
  rw [execOp_addCfg_ok hc]
  rw [(insertDomains_frame _ _ _ _).2.2.2.1]
  unfold registerContext
  have hcond : (cfg.isDefault || m.ctxs_.isEmpty) = true := by
    rcases hf with h | h
    · rw [h]
      rfl
    · rw [h]
      simp
  simp only [hcond, if_true]

theorem execOp_default_preserved (m : SSLContextManager) (op : SSLOp)
    (hp : defaultPreserving m op) :
    (execOp m op).defaultCtx_ = m.defaultCtx_ := by
  cases op with
  | addCfg cfg ts ow =>
      obtain ⟨hd, hne⟩ := hp
      cases hc : cfg.contextConstructionFails with
      | true => rw [execOp_addCfg_fail hc]
      | false =>
          rw [execOp_addCfg_ok hc]
          rw [(insertDomains_frame _ _ _ _).2.2.2.1]
          unfold registerContext
          have hcond : (cfg.isDefault || m.ctxs_.isEmpty) = false := by
            rw [hd, isEmpty_eq_false_of_ne_nil hne]
            rfl
          simp only [hcond, Bool.false_eq_true, if_false]
  | insertDN dn ctx cr ow =>
      cases hk : dnToKey dn cr with
      | error e => rw [execOp_insertDN_err hk]
      | ok key =>
          rw [execOp_insertDN_ok hk]
          exact (insertIntoDnMap_frame m key ctx ow).2.2.2.1
  | reload o c n => exact (execOp_reload_fields m o c n).2.2
  | lookupOp key => rfl
  | lookupExactOp key => rfl
  | lookupSuffixOp key => rfl
  | getDefaultOp => rfl

theorem execOp_default_isSome (m : SSLContextManager) (op : SSLOp)
    (h : m.defaultCtx_.isSome = true) :
    (execOp m op).defaultCtx_.isSome = true := by
  cases op with
  | addCfg cfg ts ow =>
      cases hc : cfg.contextConstructionFails with
      | true => rw [execOp_addCfg_fail hc]; exact h
      | false =>
          rw [execOp_addCfg_ok hc]
          rw [(insertDomains_frame _ _ _ _).2.2.2.1]
          unfold registerContext
          cases hcond : (cfg.isDefault || m.ctxs_.isEmpty) with
          | true => simp only [if_true]; rfl
          | false => simp only [Bool.false_eq_true, if_false]; exact h
  | insertDN dn ctx cr ow =>
      cases hk : dnToKey dn cr with
      | error e => rw [execOp_insertDN_err hk]; exact h
      | ok key =>
          rw [execOp_insertDN_ok hk]
          rw [(insertIntoDnMap_frame m key ctx ow).2.2.2.1]
          exact h
  | reload o c n => rw [(execOp_reload_fields m o c n).2.2]; exact h
  | lookupOp key => exact h
  | lookupExactOp key => exact h
  | lookupSuffixOp key => exact h
  | getDefaultOp => exact h

theorem invOwned_execOp (m : SSLContextManager) (op : SSLOp)
    (h : InvOwned m) (hs : opSafe m op) : InvOwned (execOp m op) := by
  cases op with
  | addCfg cfg ts ow =>
      cases hc : cfg.contextConstructionFails with
      | true => rw [execOp_addCfg_fail hc]; exact h
      | false =>
          rw [execOp_addCfg_ok hc]
          intro p hp
          rw [(insertDomains_frame _ _ _ _).1]
          rcases insertDomains_mem ⟨cfg.ctxId⟩ ow cfg.domains
              (registerContext m cfg ts) p hp with hm | hr
          · have hm' : p ∈ m.dnMap_ := hm
            exact List.mem_append_left _ (h p hm')
          · rw [hr.1]
            exact List.mem_append_right _ (List.mem_singleton_self _)
  | insertDN dn ctx cr ow =>
      have hctx : ctx ∈ m.ctxs_ := hs
      cases hk : dnToKey dn cr with
      | error e => rw [execOp_insertDN_err hk]; exact h
      | ok key =>
          rw [execOp_insertDN_ok hk]
          intro p hp
          rw [(insertIntoDnMap_frame m key ctx ow).1]
          rcases insertIntoDnMap_mem m key ctx ow p hp with hm | he
          · exact h p hm
          · rw [he]
            exact hctx
  | reload o c n =>
      intro p hp
      rw [(execOp_reload_fields m o c n).1] at hp
      rw [(execOp_reload_fields m o c n).2.1]
      exact h p hp
  | lookupOp key => exact h
  | lookupExactOp key => exact h
  | lookupSuffixOp key => exact h
  | getDefaultOp => exact h

theorem invOwned_execList :
    ∀ (ops : List SSLOp) (m : SSLContextManager),
      InvOwned m → seqSafe m ops → InvOwned (execList m ops) := by
  intro ops
  induction ops with
  | nil => exact fun m h _ => h
  | cons op rest ih =>
      intro m h hs
      exact ih (execOp m op) (invOwned_execOp m op h hs.1) hs.2

theorem healthy_no_fail {l : List (Option TLSTicketKeyManager)}
    (h : l.all ticketReloadHealthy = true) :
    ∀ t : TLSTicketKeyManager, some t ∈ l → t.reloadFails = false := by
  intro t hm
  have ht := List.all_eq_true.mp h _ hm
  unfold ticketReloadHealthy at ht
  simpa using ht

theorem wildcardBody_some {l rest : List Char}
    (h : wildcardBody l = some rest) : l = '*' :: '.' :: rest := by
  unfold wildcardBody at h
  split at h
  · cases h
    rfl
  · exact Option.noConfusion h

theorem hasBadWildcard_star {dn : String}
    (h : hasBadWildcard dn = true) : dn.data.contains '*' = true := by
  unfold hasBadWildcard at h
  cases hw : wildcardBody dn.data with
  | some rest =>
      rw [wildcardBody_some hw]
      simp [List.contains_cons]
  | none =>
      rw [hw] at h
      exact h

theorem dnToKey_valid_cases {dn : String} (cr : CertCrypto)
    (h : validDomainName dn = true) :
    (wildcardBody dn.data = none ∧ dnToKey dn cr =
      Except.ok ⟨String.mk (dn.data.map toLowerChar), cr⟩)
    ∨ (∃ rest, wildcardBody dn.data = some rest ∧ dnToKey dn cr =
      Except.ok ⟨String.mk ('.' :: rest.map toLowerChar), cr⟩) := by
  unfold validDomainName hasBadWildcard at h
  cases hw : wildcardBody dn.data with
  | none =>
      refine Or.inl ⟨rfl, ?_⟩
      have h' : dn.data.contains '*' = false := by
        simp only [hw] at h
        rw [Bool.not_eq_true'] at h
        exact h
      unfold dnToKey
      simp only [hw, h', Bool.false_eq_true, if_false]
  | some rest =>
      refine Or.inr ⟨rest, rfl, ?_⟩
      have h' : rest.contains '*' = false := by
        simp only [hw] at h
        rw [Bool.not_eq_true'] at h
        exact h
      unfold dnToKey
      simp only [hw, h', Bool.false_eq_true, if_false]

theorem suffixFromDot_star_dot (l : List Char) :
    suffixFromDot ('*' :: '.' :: l) = some ('.' :: l) := by
  unfold suffixFromDot
  rw [if_neg (by decide)]
  unfold suffixFromDot
  rw [if_pos rfl]

theorem oneLevelUpSuffix_wildcard {dn : String} {rest : List Char}
    (hdata : dn.data = '*' :: '.' :: rest) :
    oneLevelUpSuffix (lowerString dn) =
      some (String.mk ('.' :: rest.map toLowerChar)) := by
  unfold oneLevelUpSuffix lowerString
  rw [hdata]
  show Option.map String.mk
      (suffixFromDot (List.map toLowerChar ('*' :: '.' :: rest))) =
    some (String.mk ('.' :: rest.map toLowerChar))
  rw [List.map_cons, List.map_cons]
  simp only [show toLowerChar '*' = '*' from rfl,
    show toLowerChar '.' = '.' from rfl]
  rw [suffixFromDot_star_dot]
  rfl

theorem getSSLCtxBySuffix_eq_of_suffix {m : SSLContextManager}
    {key : SSLContextKey} {sfx : String}
    (h : oneLevelUpSuffix (lowerString key.dnString) = some sfx) :
    getSSLCtxBySuffix m key = dnLookup ⟨sfx, key.certCrypto⟩ m.dnMap_ := by
  unfold getSSLCtxBySuffix
  rw [h]

/-! ### Claim theorems -/

/-- C1: `lookup(hostname, certCrypto)` first probes the index with the
exact (normalized) DomainKey and returns that context if present; only
if the exact probe misses does it probe with the one-level-up suffix
key; if neither probe matches, lookup returns absent. -/
theorem getSSLCtx_exact_then_suffix (m : SSLContextManager)
    (key : SSLContextKey) :
    (∀ ctx : SSLCtx, dnLookup (normalizeKey key) m.dnMap_ = some ctx →
        getSSLCtx m key = some ctx)
    ∧ (dnLookup (normalizeKey key) m.dnMap_ = none →
        getSSLCtx m key = getSSLCtxBySuffix m key)
    ∧ (dnLookup (normalizeKey key) m.dnMap_ = none →
        getSSLCtxBySuffix m key = none → getSSLCtx m key = none) := by
  refine ⟨?_, ?_, ?_⟩
  · intro ctx h
    exact getSSLCtx_of_exact_some h
  · intro h
    exact getSSLCtx_of_exact_none h
  · intro h hs
    rw [getSSLCtx_of_exact_none h]
    exact hs

/-- Witness for C1 at concrete managers: an exact hit, an exact miss
falling through to the suffix probe, and a double miss. -/
theorem getSSLCtx_exact_then_suffix_witness :
    getSSLCtx
      ⟨[], [], [], none, "",
        [(⟨"a.com", CertCrypto.BEST_AVAILABLE⟩, ⟨1⟩)], true⟩
      ⟨"a.com", CertCrypto.BEST_AVAILABLE⟩ = some ⟨1⟩
    ∧ getSSLCtx
        ⟨[], [], [], none, "",
          [(⟨".com", CertCrypto.BEST_AVAILABLE⟩, ⟨2⟩)], true⟩
        ⟨"a.com", CertCrypto.BEST_AVAILABLE⟩ =
      getSSLCtxBySuffix
        ⟨[], [], [], none, "",
          [(⟨".com", CertCrypto.BEST_AVAILABLE⟩, ⟨2⟩)], true⟩
        ⟨"a.com", CertCrypto.BEST_AVAILABLE⟩
    ∧ getSSLCtx (mkSSLContextManager true)
        ⟨"a.com", CertCrypto.BEST_AVAILABLE⟩ = none :=
  ⟨(getSSLCtx_exact_then_suffix _ _).1 ⟨1⟩ (by decide),
   (getSSLCtx_exact_then_suffix _ _).2.1 (by decide),
   (getSSLCtx_exact_then_suffix _ _).2.2 (by decide) (by decide)⟩

/-- C3: a domain name with a `*` anywhere other than as the leading
`*.` makes `insertSSLCtxByDomainName` fail with a validation error,
and the manager — in particular the domain index — is left completely
unchanged. -/
theorem insertSSLCtxByDomainName_bad_wildcard (m : SSLContextManager)
    (dn : String) (ctx : SSLCtx) (cr : CertCrypto) (ow : Bool)
    (h : hasBadWildcard dn = true) :
    insertSSLCtxByDomainName m dn ctx cr ow =
      Except.error "invalid wildcard name"
    ∧ execOp m (SSLOp.insertDN dn ctx cr ow) = m := by
  have hk : dnToKey dn cr = Except.error "invalid wildcard name" := by
    unfold hasBadWildcard at h
    unfold dnToKey
    cases hw : wildcardBody dn.data with
    | some rest =>
        simp only [hw] at h ⊢
        rw [if_pos h]
    | none =>
        simp only [hw] at h ⊢
        rw [if_pos h]
  constructor
  · unfold insertSSLCtxByDomainName
    rw [hk]
  · exact execOp_insertDN_err hk

/-- Witness for C3: `a*.com` carries a star that is not a leading
`*.`, the insertion errors out and the fresh manager is unchanged. -/
theorem insertSSLCtxByDomainName_bad_wildcard_witness :
    hasBadWildcard "a*.com" = true
    ∧ insertSSLCtxByDomainName (mkSSLContextManager true) "a*.com" ⟨1⟩
        CertCrypto.BEST_AVAILABLE false =
      Except.error "invalid wildcard name"
    ∧ execOp (mkSSLContextManager true)
        (SSLOp.insertDN "a*.com" ⟨1⟩ CertCrypto.BEST_AVAILABLE false) =
      mkSSLContextManager true :=
  ⟨by decide,
   (insertSSLCtxByDomainName_bad_wildcard _ _ _ _ _ (by decide)).1,
   (insertSSLCtxByDomainName_bad_wildcard _ _ _ _ _ (by decide)).2⟩

/-- C4: inserting a second context under an already-present key with
`overwrite = false` signals a duplicate and leaves the original
context resolvable by subsequent lookups; with `overwrite = true` the
second context becomes the one resolved afterwards. -/
theorem insertIntoDnMap_duplicate_vs_overwrite (m : SSLContextManager)
    (key : SSLContextKey) (ctx1 ctx2 : SSLCtx)
    (h : dnLookup key m.dnMap_ = some ctx1)
    (hnorm : normalizeKey key = key) :
    insertIntoDnMap m key ctx2 false = (InsertResult.duplicate, m)
    ∧ getSSLCtxByExactDomain (insertIntoDnMap m key ctx2 false).2 key =
        some ctx1
    ∧ getSSLCtx (insertIntoDnMap m key ctx2 false).2 key = some ctx1
    ∧ getSSLCtxByExactDomain (insertIntoDnMap m key ctx2 true).2 key =
        some ctx2
    ∧ getSSLCtx (insertIntoDnMap m key ctx2 true).2 key = some ctx2 := by
  have h1 : insertIntoDnMap m key ctx2 false =
      (InsertResult.duplicate, m) := by
    unfold insertIntoDnMap
    rw [h]
    rfl
  have h2 : (insertIntoDnMap m key ctx2 true).2.dnMap_ =
      m.dnMap_.map (replaceEntry key ctx2) := by
    unfold insertIntoDnMap
    rw [h]
    rfl
  have hex1 : getSSLCtxByExactDomain (insertIntoDnMap m key ctx2 false).2
      key = some ctx1 := by
    rw [h1]
    unfold getSSLCtxByExactDomain
    rw [hnorm]
    exact h
  have hex2 : getSSLCtxByExactDomain (insertIntoDnMap m key ctx2 true).2
      key = some ctx2 := by
    unfold getSSLCtxByExactDomain
    rw [hnorm, h2]
    exact dnLookup_map_replace_self (by rw [h]; rfl)
  exact ⟨h1, hex1, getSSLCtx_of_exact_some hex1, hex2,
    getSSLCtx_of_exact_some hex2⟩

/-- Witness for C4 at a one-entry index: the duplicate insertion keeps
context 1 resolvable, the overwriting insertion resolves context 2. -/
theorem insertIntoDnMap_duplicate_vs_overwrite_witness :
    insertIntoDnMap
      ⟨[], [], [], none, "",
        [(⟨"x.com", CertCrypto.BEST_AVAILABLE⟩, ⟨1⟩)], true⟩
      ⟨"x.com", CertCrypto.BEST_AVAILABLE⟩ ⟨2⟩ false =
      (InsertResult.duplicate,
        ⟨[], [], [], none, "",
          [(⟨"x.com", CertCrypto.BEST_AVAILABLE⟩, ⟨1⟩)], true⟩)
    ∧ getSSLCtx
        (insertIntoDnMap
          ⟨[], [], [], none, "",
            [(⟨"x.com", CertCrypto.BEST_AVAILABLE⟩, ⟨1⟩)], true⟩
          ⟨"x.com", CertCrypto.BEST_AVAILABLE⟩ ⟨2⟩ false).2
        ⟨"x.com", CertCrypto.BEST_AVAILABLE⟩ = some ⟨1⟩
    ∧ getSSLCtx
        (insertIntoDnMap
          ⟨[], [], [], none, "",
            [(⟨"x.com", CertCrypto.BEST_AVAILABLE⟩, ⟨1⟩)], true⟩
          ⟨"x.com", CertCrypto.BEST_AVAILABLE⟩ ⟨2⟩ true).2
        ⟨"x.com", CertCrypto.BEST_AVAILABLE⟩ = some ⟨2⟩ :=
  ⟨(insertIntoDnMap_duplicate_vs_overwrite _ _ ⟨1⟩ ⟨2⟩ (by decide)
      (by decide)).1,
   (insertIntoDnMap_duplicate_vs_overwrite _ _ ⟨1⟩ ⟨2⟩ (by decide)
      (by decide)).2.2.1,
   (insertIntoDnMap_duplicate_vs_overwrite _ _ ⟨1⟩ ⟨2⟩ (by decide)
      (by decide)).2.2.2.2⟩

/-- C10: every lookup operation — exact-then-suffix, exact-only,
suffix-only, and default — leaves the manager's entire state
unchanged, hit or miss. -/
theorem lookups_leave_state_unchanged (m : SSLContextManager)
    (key : SSLContextKey) :
    (getSSLCtxSt m key).2 = m
    ∧ (getSSLCtxByExactDomainSt m key).2 = m
    ∧ (getSSLCtxBySuffixSt m key).2 = m
    ∧ (getDefaultSSLCtxSt m).2 = m
    ∧ execList m [SSLOp.lookupOp key, SSLOp.lookupExactOp key,
        SSLOp.lookupSuffixOp key, SSLOp.getDefaultOp] = m :=
  ⟨rfl, rfl, rfl, rfl, rfl⟩

/-- C6: in strict mode any single Ticket Key Manager failing its
reload makes the whole `reloadTLSTicketKeys` call fail; in non-strict
mode failures are skipped and every remaining registered manager is
still rotated with the same seed sets. -/
theorem reloadTLSTicketKeys_strict_mode (m : SSLContextManager)
    (o c n : List String) :
    (∀ t : TLSTicketKeyManager, m.strict_ = true →
        some t ∈ m.ticketManagers_ → t.reloadFails = true →
        reloadTLSTicketKeys m o c n =
          Except.error "ticket seed reload failed")
    ∧ (m.strict_ = false →
        reloadTLSTicketKeys m o c n = Except.ok
          { m with ticketManagers_ :=
              m.ticketManagers_.map (rotateTicketManager ⟨o, c, n⟩) }) := by
  constructor
  · intro t hs hm hf
    unfold reloadTLSTicketKeys
    rw [hs, reloadTicketManagers_strict_fail ⟨o, c, n⟩
      m.ticketManagers_ t hm hf]
    rfl
  · intro hs
    unfold reloadTLSTicketKeys
    rw [hs, reloadTicketManagers_nonstrict]
    rfl

/-- Witness for C6: a strict manager with one failing Ticket Key
Manager errors out; a non-strict manager with a failing, an absent and
a healthy manager still rotates the healthy one. -/
theorem reloadTLSTicketKeys_strict_mode_witness :
    reloadTLSTicketKeys
      ⟨[], [], [some ⟨⟨[], [], []⟩, true⟩], none, "", [], true⟩
      ["o"] ["c"] ["n"] = Except.error "ticket seed reload failed"
    ∧ reloadTLSTicketKeys
        ⟨[], [],
          [some ⟨⟨[], [], []⟩, true⟩, none, some ⟨⟨[], [], []⟩, false⟩],
          none, "", [], false⟩
        ["o"] ["c"] ["n"] = Except.ok
        ⟨[], [],
          [some ⟨⟨[], [], []⟩, true⟩, none,
            some ⟨⟨["o"], ["c"], ["n"]⟩, false⟩],
          none, "", [], false⟩ :=
  ⟨(reloadTLSTicketKeys_strict_mode _ ["o"] ["c"] ["n"]).1
      ⟨⟨[], [], []⟩, true⟩ (by decide) (by decide) (by decide),
   by
    rw [(reloadTLSTicketKeys_strict_mode _ ["o"] ["c"] ["n"]).2 (by decide)]
    decide⟩

/-- C8: `reloadTicketKeys` with zero Ticket Key Managers registered is
a no-op returning success, and certificates without a Ticket Key
Manager are skipped without error while every other manager receives
the same seeds in registration order. -/
theorem reloadTLSTicketKeys_skip_missing (m : SSLContextManager)
    (o c n : List String) :
    (m.ticketManagers_ = [] → reloadTLSTicketKeys m o c n = Except.ok m)
    ∧ (m.ticketManagers_.all ticketReloadHealthy = true →
        reloadTLSTicketKeys m o c n = Except.ok
          { m with ticketManagers_ :=
              m.ticketManagers_.map (reseedTicketManager ⟨o, c, n⟩) }) := by
  constructor
  · intro h
    obtain ⟨c1, c2, tM, d1, d2, mp, st⟩ := m
    simp only at h
    subst h
    rfl
  · intro hnf
    unfold reloadTLSTicketKeys
    rw [reloadTicketManagers_no_fail m.strict_ ⟨o, c, n⟩
      m.ticketManagers_ (healthy_no_fail hnf)]
    rfl

/-- Witness for C8: the empty-manager reload succeeds unchanged, and a
manager list `[none, some healthy]` is rotated with the `none` slot
skipped. -/
theorem reloadTLSTicketKeys_skip_missing_witness :
    reloadTLSTicketKeys (mkSSLContextManager true) ["o"] ["c"] ["n"] =
      Except.ok (mkSSLContextManager true)
    ∧ reloadTLSTicketKeys
        ⟨[], [], [none, some ⟨⟨[], [], []⟩, false⟩], none, "", [], true⟩
        ["o"] ["c"] ["n"] = Except.ok
        ⟨[], [], [none, some ⟨⟨["o"], ["c"], ["n"]⟩, false⟩],
          none, "", [], true⟩ :=
  ⟨(reloadTLSTicketKeys_skip_missing _ ["o"] ["c"] ["n"]).1 (by decide),
   by
    rw [(reloadTLSTicketKeys_skip_missing _ ["o"] ["c"] ["n"]).2
      (by decide)]
    decide⟩

/-- C7: `getDefaultContext` is absent on a fresh manager; the first
default-flagged `addCertificate` (explicitly flagged, or flagged by
being the first registration) makes it return that context; it is
never reset to absent while the manager lives; and non-default
registrations — like every other operation — leave it unchanged. -/
theorem default_context_lifecycle :
    (∀ strict : Bool,
      getDefaultSSLCtx (mkSSLContextManager strict) = none)
    ∧ (∀ (m : SSLContextManager) (cfg : SSLContextConfig)
        (ts : Option TLSTicketKeySeeds) (ow : Bool),
        cfg.contextConstructionFails = false → defaultFlagged m cfg →
        getDefaultSSLCtx (execOp m (SSLOp.addCfg cfg ts ow)) =
          some ⟨cfg.ctxId⟩)
    ∧ (∀ (m : SSLContextManager) (c : SSLCtx) (op : SSLOp),
        getDefaultSSLCtx m = some c → defaultPreserving m op →
        getDefaultSSLCtx (execOp m op) = some c)
    ∧ (∀ (m : SSLContextManager) (c : SSLCtx) (op : SSLOp),
        getDefaultSSLCtx m = some c →
        (getDefaultSSLCtx (execOp m op)).isSome = true) := by
  refine ⟨fun _ => rfl, ?_, ?_, ?_⟩
  · intro m cfg ts ow hc hf
    exact execOp_default_flagged hc hf
  · intro m c op h hp
    unfold getDefaultSSLCtx at h ⊢
    rw [execOp_default_preserved m op hp, h]
  · intro m c op h
    unfold getDefaultSSLCtx at h ⊢
    exact execOp_default_isSome m op (by rw [h]; rfl)

/-- Witness for C7: the fresh manager has no default; a first
registration installs context 5 as default; a later non-default
registration leaves it; a later default-flagged one keeps it
present. -/
theorem default_context_lifecycle_witness :
    getDefaultSSLCtx (mkSSLContextManager true) = none
    ∧ getDefaultSSLCtx (execOp (mkSSLContextManager true)
        (SSLOp.addCfg ⟨["d.com"], false, false, false, false, 5⟩
          none false)) = some ⟨5⟩
    ∧ getDefaultSSLCtx (execOp
        ⟨[⟨5⟩], [], [], some ⟨5⟩, "d.com", [], true⟩
        (SSLOp.addCfg ⟨["e.com"], false, false, false, false, 6⟩
          none false)) = some ⟨5⟩
    ∧ (getDefaultSSLCtx (execOp
        ⟨[⟨5⟩], [], [], some ⟨5⟩, "d.com", [], true⟩
        (SSLOp.addCfg ⟨["f.com"], true, false, false, false, 9⟩
          none false))).isSome = true :=
  ⟨default_context_lifecycle.1 true,
   default_context_lifecycle.2.1 _ _ none false (by decide)
     (Or.inr (by decide)),
   default_context_lifecycle.2.2.1 _ ⟨5⟩ _ (by decide)
     ⟨by decide, by decide⟩,
   default_context_lifecycle.2.2.2 _ ⟨5⟩ _ (by decide)⟩

/-- C5 (amended): starting from a manager satisfying the ownership
invariant, every sequence of `addCertificate`, ticket reloads and
lookups — and of direct `insertSSLCtxByDomainName` calls whose context
argument is already owned by the registry — preserves the invariant:
every key in the domain index maps to a context present in `ctxs_`.
(A direct insertion of a foreign context can break it, see the
counterexample.) -/
theorem invOwned_preserved (m : SSLContextManager) (ops : List SSLOp)
    (h : InvOwned m) (hs : seqSafe m ops) : InvOwned (execList m ops) :=
  invOwned_execList ops m h hs

/-- Witness for C5: a concrete safe sequence — a certificate install,
a registry-owned direct insertion, a reload and a lookup — keeps the
invariant. -/
theorem invOwned_preserved_witness :
    InvOwned (execList (mkSSLContextManager true)
      [SSLOp.addCfg ⟨["example.com"], false, false, false, false, 1⟩
        none false,
       SSLOp.insertDN "www.example.com" ⟨1⟩
         CertCrypto.BEST_AVAILABLE false,
       SSLOp.reload ["o"] ["c"] ["n"],
       SSLOp.lookupOp ⟨"www.example.com", CertCrypto.BEST_AVAILABLE⟩]) :=
  invOwned_preserved (mkSSLContextManager true) _ (by decide) (by decide)

/-- C5 counterexample: one direct `insertSSLCtxByDomainName` handing
over a context the registry does not own leaves the index pointing at
a context absent from `ctxs_`, falsifying the claim as stated over
sequences that include `insertDomainName`. -/
theorem invOwned_counterexample :
    ¬ InvOwned (execList (mkSSLContextManager true)
      [SSLOp.insertDN "example.com" ⟨0⟩
        CertCrypto.BEST_AVAILABLE false]) := by
  decide

/-- C2: a context registered under the wildcard name `*.example.com`
is stored under the suffix key `.example.com`; `lookup` then returns
it for `a.example.com` via the suffix probe, while `a.b.example.com`
(two levels below the wildcard) and the bare `example.com` both return
absent. -/
theorem wildcard_matches_exactly_one_level (m : SSLContextManager)
    (ctx : SSLCtx) (cr : CertCrypto) (ow : Bool)
    (h0 : dnLookup ⟨".example.com", cr⟩ m.dnMap_ = none)
    (h1 : dnLookup ⟨"a.example.com", cr⟩ m.dnMap_ = none)
    (h2 : dnLookup ⟨"a.b.example.com", cr⟩ m.dnMap_ = none)
    (h3 : dnLookup ⟨".b.example.com", cr⟩ m.dnMap_ = none)
    (h4 : dnLookup ⟨"example.com", cr⟩ m.dnMap_ = none)
    (h5 : dnLookup ⟨".com", cr⟩ m.dnMap_ = none) :
    insertSSLCtxByDomainName m "*.example.com" ctx cr ow =
      Except.ok (InsertResult.inserted,
        { m with dnMap_ := (⟨".example.com", cr⟩, ctx) :: m.dnMap_ })
    ∧ getSSLCtx
        { m with dnMap_ := (⟨".example.com", cr⟩, ctx) :: m.dnMap_ }
        ⟨"a.example.com", cr⟩ = some ctx
    ∧ getSSLCtx
        { m with dnMap_ := (⟨".example.com", cr⟩, ctx) :: m.dnMap_ }
        ⟨"a.b.example.com", cr⟩ = none
    ∧ getSSLCtx
        { m with dnMap_ := (⟨".example.com", cr⟩, ctx) :: m.dnMap_ }
        ⟨"example.com", cr⟩ = none := by
  have hne1 : (⟨".example.com", cr⟩ : SSLContextKey) ≠
      ⟨"a.example.com", cr⟩ := by
    intro hh
    have hstr : (".example.com" : String) = "a.example.com" :=
      congrArg SSLContextKey.dnString hh
    exact absurd hstr (by decide)
  have hne2 : (⟨".example.com", cr⟩ : SSLContextKey) ≠
      ⟨"a.b.example.com", cr⟩ := by
    intro hh
    have hstr : (".example.com" : String) = "a.b.example.com" :=
      congrArg SSLContextKey.dnString hh
    exact absurd hstr (by decide)
  have hne3 : (⟨".example.com", cr⟩ : SSLContextKey) ≠
      ⟨".b.example.com", cr⟩ := by
    intro hh
    have hstr : (".example.com" : String) = ".b.example.com" :=
      congrArg SSLContextKey.dnString hh
    exact absurd hstr (by decide)
  have hne4 : (⟨".example.com", cr⟩ : SSLContextKey) ≠
      ⟨"example.com", cr⟩ := by
    intro hh
    have hstr : (".example.com" : String) = "example.com" :=
      congrArg SSLContextKey.dnString hh
    exact absurd hstr (by decide)
  have hne5 : (⟨".example.com", cr⟩ : SSLContextKey) ≠
      ⟨".com", cr⟩ := by
    intro hh
    have hstr : (".example.com" : String) = ".com" :=
      congrArg SSLContextKey.dnString hh
    exact absurd hstr (by decide)
  have hmap : insertIntoDnMap m ⟨".example.com", cr⟩ ctx ow =
      (InsertResult.inserted,
        { m with dnMap_ := (⟨".example.com", cr⟩, ctx) :: m.dnMap_ }) := by
    unfold insertIntoDnMap
    rw [h0]
  have hins : insertSSLCtxByDomainName m "*.example.com" ctx cr ow =
      Except.ok (InsertResult.inserted,
        { m with dnMap_ := (⟨".example.com", cr⟩, ctx) :: m.dnMap_ }) := by
    show Except.ok (insertIntoDnMap m ⟨".example.com", cr⟩ ctx ow) = _
    rw [hmap]
  have e1 : getSSLCtxByExactDomain
      { m with dnMap_ := (⟨".example.com", cr⟩, ctx) :: m.dnMap_ }
      ⟨"a.example.com", cr⟩ = none := by
    show dnLookup ⟨"a.example.com", cr⟩
      ((⟨".example.com", cr⟩, ctx) :: m.dnMap_) = none
    rw [dnLookup_cons_ne hne1]
    exact h1
  have s1 : getSSLCtxBySuffix
      { m with dnMap_ := (⟨".example.com", cr⟩, ctx) :: m.dnMap_ }
      ⟨"a.example.com", cr⟩ = some ctx := by
    show dnLookup ⟨".example.com", cr⟩
      ((⟨".example.com", cr⟩, ctx) :: m.dnMap_) = some ctx
    exact dnLookup_cons_self
  have e2 : getSSLCtxByExactDomain
      { m with dnMap_ := (⟨".example.com", cr⟩, ctx) :: m.dnMap_ }
      ⟨"a.b.example.com", cr⟩ = none := by
    show dnLookup ⟨"a.b.example.com", cr⟩
      ((⟨".example.com", cr⟩, ctx) :: m.dnMap_) = none
    rw [dnLookup_cons_ne hne2]
    exact h2
  have s2 : getSSLCtxBySuffix
      { m with dnMap_ := (⟨".example.com", cr⟩, ctx) :: m.dnMap_ }
      ⟨"a.b.example.com", cr⟩ = none := by
    show dnLookup ⟨".b.example.com", cr⟩
      ((⟨".example.com", cr⟩, ctx) :: m.dnMap_) = none
    rw [dnLookup_cons_ne hne3]
    exact h3
  have e4 : getSSLCtxByExactDomain
      { m with dnMap_ := (⟨".example.com", cr⟩, ctx) :: m.dnMap_ }
      ⟨"example.com", cr⟩ = none := by
    show dnLookup ⟨"example.com", cr⟩
      ((⟨".example.com", cr⟩, ctx) :: m.dnMap_) = none
    rw [dnLookup_cons_ne hne4]
    exact h4
  have s4 : getSSLCtxBySuffix
      { m with dnMap_ := (⟨".example.com", cr⟩, ctx) :: m.dnMap_ }
      ⟨"example.com", cr⟩ = none := by
    show dnLookup ⟨".com", cr⟩
      ((⟨".example.com", cr⟩, ctx) :: m.dnMap_) = none
    rw [dnLookup_cons_ne hne5]
    exact h5
  refine ⟨hins, ?_, ?_, ?_⟩
  · rw [getSSLCtx_of_exact_none e1]
    exact s1
  · rw [getSSLCtx_of_exact_none e2]
    exact s2
  · rw [getSSLCtx_of_exact_none e4]
    exact s4

/-- Witness for C2 on the fresh manager: registering `*.example.com`
stores key `.example.com`; `a.example.com` resolves, the deeper and
the bare names do not. -/
theorem wildcard_matches_exactly_one_level_witness :
    insertSSLCtxByDomainName (mkSSLContextManager true) "*.example.com"
      ⟨3⟩ CertCrypto.BEST_AVAILABLE false =
      Except.ok (InsertResult.inserted,
        ⟨[], [], [], none, "",
          [(⟨".example.com", CertCrypto.BEST_AVAILABLE⟩, ⟨3⟩)], true⟩)
    ∧ getSSLCtx
        ⟨[], [], [], none, "",
          [(⟨".example.com", CertCrypto.BEST_AVAILABLE⟩, ⟨3⟩)], true⟩
        ⟨"a.example.com", CertCrypto.BEST_AVAILABLE⟩ = some ⟨3⟩
    ∧ getSSLCtx
        ⟨[], [], [], none, "",
          [(⟨".example.com", CertCrypto.BEST_AVAILABLE⟩, ⟨3⟩)], true⟩
        ⟨"a.b.example.com", CertCrypto.BEST_AVAILABLE⟩ = none
    ∧ getSSLCtx
        ⟨[], [], [], none, "",
          [(⟨".example.com", CertCrypto.BEST_AVAILABLE⟩, ⟨3⟩)], true⟩
        ⟨"example.com", CertCrypto.BEST_AVAILABLE⟩ = none :=
  wildcard_matches_exactly_one_level (mkSSLContextManager true) ⟨3⟩
    CertCrypto.BEST_AVAILABLE false (by decide) (by decide) (by decide)
    (by decide) (by decide) (by decide)

/-- C9 (amended): if TLS context construction fails, `addCertificate`
errors out and the manager is unchanged (all-or-nothing); otherwise
every valid enumerated name becomes lookup-able, and a malformed
(bad-wildcard) name is never added under its own key — its
exact-domain lookup misses (given that no index key contains a `*`,
which valid insertions maintain) — although the malformed hostname can
still resolve through a one-level wildcard suffix match, see the
counterexample. -/
theorem addSSLContextConfig_partial_success (m : SSLContextManager)
    (cfg : SSLContextConfig) (ts : Option TLSTicketKeySeeds) (ow : Bool) :
    (cfg.contextConstructionFails = true →
      addSSLContextConfig m cfg ts ow =
        Except.error "SSLContext construction failed"
      ∧ execOp m (SSLOp.addCfg cfg ts ow) = m)
    ∧ (cfg.contextConstructionFails = false →
      (∀ dn ∈ cfg.domains, validDomainName dn = true →
        (getSSLCtx (execOp m (SSLOp.addCfg cfg ts ow))
          ⟨dn, CertCrypto.BEST_AVAILABLE⟩).isSome = true)
      ∧ (noStarKeys m → ∀ (dn : String) (cr : CertCrypto),
          hasBadWildcard dn = true →
          getSSLCtxByExactDomain (execOp m (SSLOp.addCfg cfg ts ow))
            ⟨dn, cr⟩ = none)) := by
  constructor
  · intro hc
    exact ⟨addSSLContextConfig_fail hc, execOp_addCfg_fail hc⟩
  · intro hc
    constructor
    · intro dn hdn hvalid
      rw [execOp_addCfg_ok hc]
      rcases dnToKey_valid_cases CertCrypto.BEST_AVAILABLE hvalid with
        ⟨hw, hkey⟩ | ⟨rest, hw, hkey⟩
      · apply getSSLCtx_isSome_of_exact
        exact insertDomains_present_of_mem ⟨cfg.ctxId⟩ ow cfg.domains
          (registerContext m cfg ts) dn _ hdn hkey
      · have hdata := wildcardBody_some hw
        have hpres := insertDomains_present_of_mem ⟨cfg.ctxId⟩ ow
          cfg.domains (registerContext m cfg ts) dn _ hdn hkey
        cases hex : getSSLCtxByExactDomain
            (insertDomains (registerContext m cfg ts) ⟨cfg.ctxId⟩ ow
              cfg.domains) ⟨dn, CertCrypto.BEST_AVAILABLE⟩ with
        | some c =>
            apply getSSLCtx_isSome_of_exact
            rw [hex]
            rfl
        | none =>
            rw [getSSLCtx_of_exact_none hex]
            rw [getSSLCtxBySuffix_eq_of_suffix
              (oneLevelUpSuffix_wildcard hdata)]
            exact hpres
    · intro hns dn cr hbad
      rw [execOp_addCfg_ok hc]
      have hns' : noStarKeys (insertDomains (registerContext m cfg ts)
          ⟨cfg.ctxId⟩ ow cfg.domains) :=
        noStarKeys_insertDomains (fun p hp => hns p hp)
      exact star_probe_none
        (map_toLowerChar_contains_star_true (hasBadWildcard_star hbad))
        hns'

/-- C9 counterexample: for a certificate enumerating the valid
wildcard `*.example.com` and the malformed `a*.example.com`, the
malformed name is rejected by validation yet `lookup` still resolves
it through the wildcard suffix, so the claim's "only the malformed
name is absent" is false as stated. -/
theorem addSSLContextConfig_malformed_still_resolves :
    hasBadWildcard "a*.example.com" = true
    ∧ getSSLCtx (execOp (mkSSLContextManager true)
        (SSLOp.addCfg
          ⟨["*.example.com", "a*.example.com"],
            false, false, false, false, 7⟩ none false))
        ⟨"a*.example.com", CertCrypto.BEST_AVAILABLE⟩ = some ⟨7⟩ :=
  ⟨by decide, by decide⟩

/-- Witness for C9: a failing construction leaves the fresh manager
unchanged; a successful install of `www.foo.com`, `*.foo.com` and the
malformed `ba*d.com` makes the two valid names lookup-able while the
malformed one stays absent from the exact index. -/
theorem addSSLContextConfig_partial_success_witness :
    (addSSLContextConfig (mkSSLContextManager true)
      ⟨["www.foo.com"], false, false, true, false, 2⟩ none false =
        Except.error "SSLContext construction failed"
      ∧ execOp (mkSSLContextManager true)
          (SSLOp.addCfg ⟨["www.foo.com"], false, false, true, false, 2⟩
            none false) = mkSSLContextManager true)
    ∧ (getSSLCtx (execOp (mkSSLContextManager true)
        (SSLOp.addCfg
          ⟨["www.foo.com", "*.foo.com", "ba*d.com"],
            false, false, false, false, 3⟩ none false))
        ⟨"www.foo.com", CertCrypto.BEST_AVAILABLE⟩).isSome = true
    ∧ (getSSLCtx (execOp (mkSSLContextManager true)
        (SSLOp.addCfg
          ⟨["www.foo.com", "*.foo.com", "ba*d.com"],
            false, false, false, false, 3⟩ none false))
        ⟨"*.foo.com", CertCrypto.BEST_AVAILABLE⟩).isSome = true
    ∧ getSSLCtxByExactDomain (execOp (mkSSLContextManager true)
        (SSLOp.addCfg
          ⟨["www.foo.com", "*.foo.com", "ba*d.com"],
            false, false, false, false, 3⟩ none false))
        ⟨"ba*d.com", CertCrypto.BEST_AVAILABLE⟩ = none :=
  ⟨(addSSLContextConfig_partial_success (mkSSLContextManager true)
      ⟨["www.foo.com"], false, false, true, false, 2⟩ none false).1
    (by decide),
   ((addSSLContextConfig_partial_success (mkSSLContextManager true)
      ⟨["www.foo.com", "*.foo.com", "ba*d.com"],
        false, false, false, false, 3⟩ none false).2 (by decide)).1
    "www.foo.com" (by decide) (by decide),
   ((addSSLContextConfig_partial_success (mkSSLContextManager true)
      ⟨["www.foo.com", "*.foo.com", "ba*d.com"],
        false, false, false, false, 3⟩ none false).2 (by decide)).1
    "*.foo.com" (by decide) (by decide),
   ((addSSLContextConfig_partial_success (mkSSLContextManager true)
      ⟨["www.foo.com", "*.foo.com", "ba*d.com"],
        false, false, false, false, 3⟩ none false).2 (by decide)).2
    (by decide) "ba*d.com" CertCrypto.BEST_AVAILABLE (by decide)⟩

end Wangle
